import Mathlib

/-!
# pyvisioniq — verification of the spec against the source

Shallow embedding of the parts of the pyvisioniq repository that the
claims concern:

* `src/api/rate_limiter.py` — `RateLimitTracker` (daily call counter,
  back-off multiplier, midnight reset);
* `data_collector.py` — `DataCollector.calculate_next_collection_time`
  (evenly-distributed slot grid);
* `src/storage/csv_store.py` — `CSVStorage` trip dedup, battery append,
  and the charging-session engine
  (`_track_charging_session`, `_append_charging_session`,
  `_update_charging_session`, `_complete_charging_session`,
  `_get_last_battery_level`);
* `tools/recompute_is_cached.py` — the freshness classifier
  (`is_remote_data_fresh`, `extract_remote_timestamp`).

Modelling conventions:

* Python `float` arithmetic is modelled with `ℚ`.  Every float that the
  claims touch is a small dyadic or decimal value (1.5, 2.25, 3.375, 4.0,
  77.4, battery percentages, kWh figures rounded to 2 decimals), all of
  which are represented exactly enough that no rounding boundary is
  crossed; the values fed to `round(·, 2)` in the charging engine are of
  the form `387·d/5` for an integer `d`, whose fractional parts lie in
  `{0, .2, .4, .6, .8}`, so Python's round-half-to-even and the half-up
  `round` used here agree on them.
* Wall-clock timestamps are `ℚ` (minutes); calendar dates are `ℤ`
  (day ordinals).
* Battery percentages are `ℤ`: the vendor field `ev_battery_percentage`
  is an integer percentage and `DataValidator.validate_battery_level`
  coerces every level it accepts to `int`.
* Fallible/optional Python values are `Option`.
-/

/-- Python `round(x, 2)` on the exact rational value (half-up tie break;
the engine's inputs never hit a tie, see the header comment). -/
def round2 (q : ℚ) : ℚ := (round (q * 100) : ℤ) / 100

/-- Python `round(x, 1)` on the exact rational value. -/
def round1 (q : ℚ) : ℚ := (round (q * 10) : ℤ) / 10

/-! ## Rate-limit governor — `src/api/rate_limiter.py` -/

/-- The persisted/in-memory state of `RateLimitTracker`
(fields set in `__init__` and `_load_state`).  The two event-log files
(`call_sources` ring contents, `rate_limit_events.json`) are irrelevant
to the claims about the counter and the multiplier; `call_sources` is
kept abstractly as a list so that the midnight reset can clear it. -/
structure RateLimitState where
  calls_today : ℕ
  last_reset : ℤ
  last_call_time : Option ℚ
  backoff_multiplier : ℚ
  call_sources : List String
  deriving DecidableEq, Repr

/-- `RateLimitTracker._maybe_reset_day` (rate_limiter.py lines 236-250):
when the stored date is earlier than today, zero the counter, clear the
last-call time and the source ring, and drop the back-off to 1.0. -/
def maybeResetDay (today : ℤ) (s : RateLimitState) : RateLimitState :=
  if s.last_reset < today then
    { calls_today := 0
      last_reset := today
      last_call_time := none
      backoff_multiplier := 1
      call_sources := [] }
  else s

/-- `RateLimitTracker.can_make_call` (rate_limiter.py lines 61-68):
runs the day reset, then compares the counter with the daily limit.
Returns the boolean together with the (possibly reset) state. -/
def canMakeCall (dailyLimit : ℕ) (today : ℤ) (s : RateLimitState) :
    Bool × RateLimitState :=
  let s2 := maybeResetDay today s
  (decide (s2.calls_today < dailyLimit), s2)

/-- `RateLimitTracker.record_rate_limit_hit` (rate_limiter.py lines
112-128), restricted to its effect on the persisted counter state:
`backoff_multiplier = min(backoff * 1.5, 4.0)`.  The 200-slot event ring
it also appends to lives in a separate file and is not read back by any
code a claim mentions. -/
def recordRateLimitHit (s : RateLimitState) : RateLimitState :=
  { s with backoff_multiplier := min (s.backoff_multiplier * (3/2)) 4 }

/-- A governor state as first constructed in `__init__`
(counter 0, back-off 1.0). -/
def initialRateLimitState (today : ℤ) : RateLimitState :=
  { calls_today := 0
    last_reset := today
    last_call_time := none
    backoff_multiplier := 1
    call_sources := [] }

/-- Back-off multiplier after `n` consecutive `record_rate_limit_hit`
calls starting from the initial multiplier 1.0. -/
def backoffAfterHits (n : ℕ) : ℚ :=
  (recordRateLimitHit^[n] (initialRateLimitState 0)).backoff_multiplier

/-! ## Scheduler grid — `data_collector.py` -/

/-- `DataCollector.__init__` (data_collector.py line 66):
`collection_interval_minutes = (24 * 60) // daily_limit` — note the
floor (integer) division. -/
def collectionIntervalMinutes (dailyLimit : ℕ) : ℕ :=
  (24 * 60) / dailyLimit

/-- The slots `today_start + i * collection_interval_minutes` for
`i ∈ [0, daily_limit)` that lie strictly in the future, in loop order
(`calculate_next_collection_time`, data_collector.py lines 208-213).
Times are minutes since today's midnight. -/
def futureCollectionTimes (dailyLimit : ℕ) (base now : ℚ) : List ℚ :=
  ((List.range dailyLimit).map (fun (i : ℕ) => base * (i : ℚ))).filter
    (fun t => now < t)

/-- `DataCollector.calculate_next_collection_time`
(data_collector.py lines 187-220) in the case `last_call_time is None`:
the first future slot of today's evenly-distributed grid, or tomorrow's
midnight (minute 1440) when no slot remains today. -/
def calculateNextCollectionTime (dailyLimit : ℕ) (now : ℚ) : ℚ :=
  let base : ℚ := (collectionIntervalMinutes dailyLimit : ℚ)
  match futureCollectionTimes dailyLimit base now with
  | [] => 1440
  | t :: _ => t

/-- The slot grid the spec describes, with *real* division
`base_interval_min = (24 × 60) / daily_limit`: the smallest slot
strictly after `now`, or tomorrow's midnight.  Written from the spec's
words for comparison against `calculateNextCollectionTime`. -/
def specNextPollRealDivision (dailyLimit : ℕ) (now : ℚ) : ℚ :=
  let base : ℚ := 1440 / (dailyLimit : ℚ)
  match (((List.range dailyLimit).map (fun (i : ℕ) => base * (i : ℚ))).filter
      (fun t => now < t)).min? with
  | some m => m
  | none => 1440

/-- The same spec-style "smallest slot" reading, but with the floor
division the source actually performs. -/
def specNextPollFloorDivision (dailyLimit : ℕ) (now : ℚ) : ℚ :=
  let base : ℚ := (collectionIntervalMinutes dailyLimit : ℚ)
  match (((List.range dailyLimit).map (fun (i : ℕ) => base * (i : ℚ))).filter
      (fun t => now < t)).min? with
  | some m => m
  | none => 1440

/-! ## Freshness classifier — `tools/recompute_is_cached.py` -/

/-- A vendor payload as seen by the freshness classifier.  The three
timestamp candidates are held already parsed (`Option ℤ` covers both an
absent field and one `parse_remote_timestamp` rejects).  `rawSerialized`
is the canonical JSON serialization of `raw_data`
(`json.dumps(raw, sort_keys=True, default=str)`, with `raw_data`
defaulting to the empty object); `raw_data_signature` md5-hashes it and
only ever compares the hashes for equality, so the hash is modelled by
the serialization itself, and the `except` branch of
`raw_data_signature` (a `json.dumps` failure) is unreachable for the
dict payloads modelled here, making the signature always present. -/
structure Payload where
  api_last_updated : Option ℤ
  vehicleStatus_dateTime : Option ℤ
  evStatus_lastUpdatedAt : Option ℤ
  rawSerialized : String
  deriving DecidableEq, Repr

/-- `extract_remote_timestamp` (recompute_is_cached.py lines 83-102):
first parseable candidate among `api_last_updated`,
`raw_data.vehicleStatus.dateTime`,
`raw_data.vehicleStatus.evStatus.lastUpdatedAt`, in that order. -/
def extractRemoteTimestamp (p : Payload) : Option ℤ :=
  p.api_last_updated <|> p.vehicleStatus_dateTime <|> p.evStatus_lastUpdatedAt

/-- `raw_data_signature` (recompute_is_cached.py lines 105-111); see
`Payload.rawSerialized` for why it is always `some`. -/
def rawDataSignature (p : Payload) : Option String :=
  some p.rawSerialized

/-- `is_remote_data_fresh` (recompute_is_cached.py lines 114-139).
`previous` is `none` when `previous_data` is `None` (or a falsy empty
dict, which Python's `if previous_data` treats identically); the
`not isinstance(new_data, dict)` early return is vacuous here because a
`Payload` models a dict. -/
def isRemoteDataFresh (newData : Payload) (previous : Option Payload) : Bool :=
  let newTs := extractRemoteTimestamp newData
  let prevTs := previous.bind extractRemoteTimestamp
  let fresh :=
    match newTs, prevTs with
    | some n, some p =>
        if n > p then true
        else if n < p then true  -- treat clock skew as fresh
        else false
    | some _, none => true
    | none, some _ => false
    | none, none => true
  if fresh then true
  else
    match rawDataSignature newData, previous.bind rawDataSignature with
    | some newSig, some prevSig => if newSig ≠ prevSig then true else false
    | _, _ => false

/-! ## Trip dedup — `CSVStorage.store_vehicle_data`
(`src/storage/csv_store.py` lines 176-246) -/

/-- One row of `trips.csv` / one incoming trip dict.  The three key
fields are kept as the strings Python's `str()` produces for them (the
trip id is built purely from those strings); the CSV round-trip through
pandas is modelled as the identity on them.  All remaining columns are
folded into `otherColumns`. -/
structure TripRow where
  date : Option String
  distance : String
  odometer_start : Option String
  timestamp : String
  otherColumns : String
  deriving DecidableEq, Repr

/-- Python `str.replace(".0", "")` on the character list: remove every
non-overlapping occurrence of `".0"`, scanning left to right.  (Lean
core's `String.replace` has the same semantics but does not reduce in
the kernel, so the loop is spelled out.) -/
def removeDotZero : List Char → List Char
  | [] => []
  | '.' :: '0' :: rest => removeDotZero rest
  | c :: rest => c :: removeDotZero rest

/-- `str(...).replace(".0", "")` as applied to the trip date. -/
def pyReplaceDotZero (s : String) : String :=
  String.mk (removeDotZero s.toList)

/-- The dedup identifier built in `store_vehicle_data`
(csv_store.py lines 185-195 for existing rows, 200-207 for incoming
trips): normalized date (every occurrence of `".0"` removed, empty
when the date is missing), `"_"`, the distance, and — when an odometer
start is present — `"_"` and the odometer start. -/
def tripId (t : TripRow) : String :=
  let dateStr := match t.date with
    | some d => pyReplaceDotZero d
    | none => ""
  let withDistance := dateStr ++ "_" ++ t.distance
  match t.odometer_start with
  | some o => withDistance ++ "_" ++ o
  | none => withDistance

/-- The trip-storing loop of `store_vehicle_data`: collect the ids of
the existing rows, then append each incoming trip whose id is not yet
present (adding it to the seen set, so duplicates within one batch are
also skipped), stamping it with the call's timestamp. -/
def storeTrips (table : List TripRow) (timestamp : String)
    (trips : List TripRow) : List TripRow :=
  let seed : List String := table.map tripId
  let step := fun (acc : List String × List TripRow) (t : TripRow) =>
    let id := tripId t
    if id ∈ acc.1 then acc
    else (id :: acc.1, acc.2 ++ [{ t with timestamp := timestamp }])
  let result := trips.foldl step (seed, [])
  table ++ result.2

/-- Number of rows of the trips table carrying a given dedup key. -/
def tripKeyCount (table : List TripRow) (id : String) : ℕ :=
  (table.filter (fun r => tripId r = id)).length

/-! ## Charging-session engine — `src/storage/csv_store.py` -/

/-- One row of `charging_sessions.csv` (header fixed in `_init_files`,
csv_store.py lines 138-159).  `session_id` is derived in the source from
`datetime.now()` at append time (`charge_YYYYMMDD_HHMMSS`); successive
polls are minutes apart, so the ids are distinct, and they are modelled
by a fresh natural number drawn from a counter carried in the engine
state.  `duration_minutes` of a never-updated row is its placeholder 0;
no claim reads that field before `_update_charging_session` writes it. -/
structure SessionRow where
  session_id : ℕ
  start_time : ℚ
  end_time : Option ℚ
  duration_minutes : ℚ
  start_battery : ℤ
  end_battery : ℤ
  energy_added : ℚ
  avg_power : ℚ
  max_power : ℚ
  location_lat : Option ℚ
  location_lon : Option ℚ
  is_complete : Bool
  deriving DecidableEq, Repr

/-- The battery fields of one poll, as handed to
`_track_charging_session` (the `battery` dict of the snapshot). -/
structure BatteryInput where
  level : Option ℤ
  is_charging : Bool
  is_plugged_in : Option Bool
  charging_power : Option ℚ
  deriving DecidableEq, Repr

/-- Location dict of the snapshot (only latitude/longitude are stored on
a session row). -/
structure LocationInput where
  latitude : Option ℚ
  longitude : Option ℚ
  deriving DecidableEq, Repr

/-- The storage state the engine reads and writes: the
`battery_status.csv` rows (only the `battery_level` column is ever read
back, by `_get_last_battery_level`, so a row is its level), the
`charging_sessions.csv` rows, and the fresh-id counter standing for the
wall clock that names new sessions. -/
structure EngineState where
  battery : List (Option ℤ)
  sessions : List SessionRow
  nextId : ℕ
  deriving DecidableEq, Repr

/-- Engine configuration: `charging_gap_threshold_minutes`
(csv_store.py lines 71-76, `max((24*60/daily_limit) * gap_multiplier,
5.0)`) and `battery_capacity_kwh` (line 77, env default 77.4).  The
threshold is carried as the already-computed value; note that
`_update_charging_session` does *not* consult `capacity` (it hardcodes
77.4 at line 788). -/
structure EngineConfig where
  gapThreshold : ℚ
  capacity : ℚ
  deriving DecidableEq, Repr

/-- `DataValidator.validate_battery_level` (src/utils/debug.py lines
118-143) on an integer level: `None`/NaN propagates, an in-range value
is returned, an out-of-range value raises `ValueError`. -/
inductive LevelValidation where
  | missing
  | invalid
  | valid (level : ℤ)
  deriving DecidableEq, Repr

def validateBatteryLevel (v : Option ℤ) : LevelValidation :=
  match v with
  | none => .missing
  | some n => if 0 ≤ n ∧ n ≤ 100 then .valid n else .invalid

/-- `DataValidator.validate_numeric(raw, min=0, max=350) or 0` as used
for `charging_power` in `_track_charging_session` (csv_store.py lines
596-609): missing becomes 0, an out-of-range value raises and the
handler substitutes 0. -/
def validateChargingPower (v : Option ℚ) : ℚ :=
  match v with
  | none => 0
  | some q => if 0 ≤ q ∧ q ≤ 350 then q else 0

/-- `CSVStorage._get_last_battery_level` (csv_store.py lines 494-507):
the `battery_level` of the second-to-last row of `battery_status.csv`,
`None` when the table has fewer than two rows (or that cell is not
numeric). -/
def getLastBatteryLevel (battery : List (Option ℤ)) : Option ℤ :=
  if battery.length ≤ 1 then none
  else (battery.get? (battery.length - 2)).join

/-- Replace the first element satisfying `p` (pandas
`df[...].index; idx[0]` followed by `df.loc[idx, ...] = ...`). -/
def updateFirst (p : α → Bool) (f : α → α) : List α → List α
  | [] => []
  | x :: xs => if p x then f x :: xs else x :: updateFirst p f xs

/-- `CSVStorage._append_charging_session` (csv_store.py lines 509-545):
a new row whose start and end battery are both the given level, whose
`end_time` is the append timestamp exactly when the row is born
complete, and whose average and maximum power are the given power
(`charging_power or 0` — the power handed in is already the validated
value, whose falsy case is 0 itself). -/
def appendChargingSession (s : EngineState) (timestamp : ℚ)
    (batteryLevel : ℤ) (chargingPower : ℚ) (location : Option LocationInput)
    (isComplete : Bool) : EngineState × ℕ :=
  let row : SessionRow :=
    { session_id := s.nextId
      start_time := timestamp
      end_time := if isComplete then some timestamp else none
      duration_minutes := 0
      start_battery := batteryLevel
      end_battery := batteryLevel
      energy_added := 0
      avg_power := chargingPower
      max_power := chargingPower
      location_lat := location.bind (·.latitude)
      location_lon := location.bind (·.longitude)
      is_complete := isComplete }
  ({ s with sessions := s.sessions ++ [row], nextId := s.nextId + 1 }, s.nextId)

/-- The row rewrite `_update_charging_session` performs on the matched
session (csv_store.py lines 731-797): set the end battery and end time,
recompute the (rounded) duration from the stored start time, raise the
max power when the new power beats it (Python `if charging_power and
...` — a zero power is falsy), re-validate the stored start battery
(`ValueError`/`None` fall back to 0), and when the battery delta is
positive recompute `energy_added` from the **hardcoded** 77.4 kWh pack
(line 788) and, when the unrounded duration is positive and the energy
positive, the average power. -/
def updateSessionRow (timestamp : ℚ) (batteryLevel : ℤ) (chargingPower : ℚ)
    (r : SessionRow) : SessionRow :=
  let durationRaw := timestamp - r.start_time
  let maxPower :=
    if chargingPower ≠ 0 ∧ chargingPower > r.max_power then chargingPower
    else r.max_power
  let startBattery : ℤ :=
    match validateBatteryLevel (some r.start_battery) with
    | .valid v => v
    | _ => 0
  let batteryDiff := batteryLevel - startBattery
  let energy :=
    if batteryDiff > 0 then round2 ((batteryDiff : ℚ) / 100 * (387/5))
    else r.energy_added
  let avgPower :=
    if durationRaw > 0 ∧ energy > 0 then round2 (energy / (durationRaw / 60))
    else r.avg_power
  { r with
    end_battery := batteryLevel
    end_time := some timestamp
    duration_minutes := round1 durationRaw
    max_power := maxPower
    energy_added := energy
    avg_power := avgPower }

/-- `CSVStorage._update_charging_session`: rewrite the first row whose
id matches (a no-op when none does). -/
def updateChargingSession (s : EngineState) (sessionId : ℕ) (timestamp : ℚ)
    (batteryLevel : ℤ) (chargingPower : ℚ) : EngineState :=
  let rewritten := updateFirst (fun r => r.session_id == sessionId)
    (updateSessionRow timestamp batteryLevel chargingPower) s.sessions
  { s with sessions := rewritten }

/-- `CSVStorage._complete_charging_session` (csv_store.py lines
799-807): a final `_update_charging_session` with power 0, then the
completion flag is set on the first row with the id. -/
def completeChargingSession (s : EngineState) (sessionId : ℕ) (timestamp : ℚ)
    (batteryLevel : ℤ) : EngineState :=
  let s2 := updateChargingSession s sessionId timestamp batteryLevel 0
  let flagged := updateFirst (fun r => r.session_id == sessionId)
    (fun r => { r with is_complete := true }) s2.sessions
  { s2 with sessions := flagged }

/-- The active session `_track_charging_session` looks for (csv_store.py
lines 661-669): the last row whose completion flag is false. -/
def findActiveSession (sessions : List SessionRow) : Option SessionRow :=
  (sessions.filter (fun r => r.is_complete = false)).getLast?

/-- `CSVStorage._track_charging_session` (csv_store.py lines 547-729).
The three signals in priority order: the vendor `is_charging` flag; the
`is_plugged_in` flag combined with a level increase since the previous
reading; a level rise of at least 2 points with neither flag set, which
one-shots a complete "inferred" session.  Otherwise the usual state
machine on the (unique) active session, splitting on a gap larger than
the configured threshold. -/
def trackChargingSession (cfg : EngineConfig) (s : EngineState)
    (timestamp : ℚ) (battery : BatteryInput) (location : Option LocationInput) :
    EngineState :=
  match validateBatteryLevel battery.level with
  | .missing => s
  | .invalid => s
  | .valid batteryLevel =>
    let chargingPower := validateChargingPower battery.charging_power
    let plugged : Bool := battery.is_plugged_in == some true
    let prevLevel := getLastBatteryLevel s.battery
    let levelRose : Bool :=
      match prevLevel with
      | some p => decide (batteryLevel > p)
      | none => false
    let effectivelyCharging : Bool :=
      battery.is_charging || (plugged && levelRose)
    let inferredRise : Bool :=
      match prevLevel with
      | some p => decide (batteryLevel ≥ p + 2)
      | none => false
    if !effectivelyCharging && inferredRise then
      -- inferred charging session, created complete and one-shot closed
      match prevLevel with
      | some p =>
        let (s2, sid) :=
          appendChargingSession s timestamp p chargingPower location true
        let s3 := updateChargingSession s2 sid timestamp batteryLevel chargingPower
        completeChargingSession s3 sid timestamp batteryLevel
      | none => s
    else
      match findActiveSession s.sessions with
      | none =>
        if effectivelyCharging then
          (appendChargingSession s timestamp batteryLevel chargingPower
            location false).1
        else s
      | some active =>
        if effectivelyCharging then
          match active.end_time with
          | some lastUpdate =>
            if timestamp - lastUpdate > cfg.gapThreshold then
              let s2 := completeChargingSession s active.session_id
                lastUpdate active.end_battery
              (appendChargingSession s2 timestamp batteryLevel chargingPower
                location false).1
            else
              updateChargingSession s active.session_id timestamp
                batteryLevel chargingPower
          | none =>
            updateChargingSession s active.session_id timestamp
              batteryLevel chargingPower
        else
          completeChargingSession s active.session_id timestamp batteryLevel

/-- `CSVStorage.store_vehicle_data` restricted to a snapshot carrying a
battery dict (csv_store.py lines 248-321): append the battery row, then
run the session tracker (which therefore sees the freshly appended row
as the last row of the battery table). -/
def storeBatterySnapshot (cfg : EngineConfig) (s : EngineState)
    (timestamp : ℚ) (battery : BatteryInput) (location : Option LocationInput) :
    EngineState :=
  trackChargingSession cfg
    { s with battery := s.battery ++ [battery.level] }
    timestamp battery location

/-- The states the engine can reach from empty tables by any sequence of
battery-carrying store operations.  The level bound on each step is the
data model's `level ∈ [0, 100]` contract for vendor snapshots. -/
inductive ReachableEngineState (cfg : EngineConfig) : EngineState → Prop where
  | init : ReachableEngineState cfg ⟨[], [], 0⟩
  | step {s timestamp battery location} :
      ReachableEngineState cfg s →
      (∀ v, battery.level = some v → 0 ≤ v ∧ v ≤ 100) →
      ReachableEngineState cfg
        (storeBatterySnapshot cfg s timestamp battery location)

/-- Number of incomplete sessions in a table. -/
def incompleteCount (sessions : List SessionRow) : ℕ :=
  (sessions.filter (fun r => r.is_complete = false)).length

/-- The invariants the charging-session engine maintains across store
operations.  `closedEnergy` records that the energy of a closed session
whose battery strictly rose was computed by `_update_charging_session`
from the hardcoded 77.4 kWh capacity. -/
structure EngineInv (s : EngineState) : Prop where
  nodupIds : (s.sessions.map (·.session_id)).Nodup
  idsLt : ∀ r ∈ s.sessions, r.session_id < s.nextId
  oneActive : incompleteCount s.sessions ≤ 1
  startRange : ∀ r ∈ s.sessions, 0 ≤ r.start_battery ∧ r.start_battery ≤ 100
  closedEnergy : ∀ r ∈ s.sessions, r.is_complete = true →
    r.start_battery < r.end_battery →
    r.energy_added
      = round2 (((r.end_battery - r.start_battery : ℤ) : ℚ) / 100 * (387/5))
  batteryRange : ∀ v ∈ s.battery, ∀ x, v = some x → 0 ≤ x ∧ x ≤ 100

/-- The closed-session energy formula exactly as the spec states it,
with the *configured* capacity
(`round(max(0,(end-start)/100) * battery_capacity_kwh, 2)`). -/
def specEnergyFormula (capacity : ℚ) (r : SessionRow) : ℚ :=
  round2 (max 0 (((r.end_battery - r.start_battery : ℤ) : ℚ) / 100) * capacity)

/-- A two-poll run with `BATTERY_CAPACITY_KWH` configured to 100: one
charging poll at level 60, then a non-charging poll at level 68 (which
the engine records as an inferred complete session using the hardcoded
77.4). -/
def capacityTrace : EngineState :=
  storeBatterySnapshot ⟨72, 100⟩
    (storeBatterySnapshot ⟨72, 100⟩ ⟨[], [], 0⟩ 600
      ⟨some 60, true, none, some 0⟩ none)
    648 ⟨some 68, false, none, some 0⟩ none

/-- A three-poll run under the default 77.4 kWh capacity where the
level rises to 62 and falls back to 60 before the session closes: the
closing update leaves the energy computed at the peak in place. -/
def riseFallTrace : EngineState :=
  storeBatterySnapshot ⟨72, 387/5⟩
    (storeBatterySnapshot ⟨72, 387/5⟩
      (storeBatterySnapshot ⟨72, 387/5⟩ ⟨[], [], 0⟩ 600
        ⟨some 60, true, none, some 0⟩ none)
      648 ⟨some 62, true, none, some 0⟩ none)
    696 ⟨some 60, false, none, some 0⟩ none

/-- The spec's charging-inference scenario: level 60 at minute 600
(10:00), level 68 at minute 648 (10:48), never charging, never plugged
in, default configuration (48-minute base interval, multiplier 1.5 →
72-minute gap threshold; 77.4 kWh capacity). -/
def inferredScenarioTrace : EngineState :=
  storeBatterySnapshot ⟨72, 387/5⟩
    (storeBatterySnapshot ⟨72, 387/5⟩ ⟨[], [], 0⟩ 600
      ⟨some 60, false, none, some 0⟩ none)
    648 ⟨some 68, false, none, some 0⟩ none

/-- The single session row the engine records for the spec's inference
scenario (see `inferredScenarioTrace`). -/
def inferredSessionRow : SessionRow :=
  { session_id := 0
    start_time := 648
    end_time := some 648
    duration_minutes := 0
    start_battery := 60
    end_battery := 68
    energy_added := round2 (((68 - 60 : ℤ) : ℚ) / 100 * (387/5))
    avg_power := 0
    max_power := 0
    location_lat := none
    location_lon := none
    is_complete := true }

/-! ## Helper lemmas about the engine's table surgery -/

theorem updateFirst_length (p : α → Bool) (f : α → α) (l : List α) :
    (updateFirst p f l).length = l.length := by
  induction l with
  | nil => rfl
  | cons x t ih =>
    by_cases hx : p x = true <;> simp [updateFirst, hx, ih]

theorem updateFirst_cons_pos (p : α → Bool) (f : α → α) (x : α) (t : List α)
    (hx : p x = true) : updateFirst p f (x :: t) = f x :: t := by
  simp [updateFirst, hx]

theorem updateFirst_append_left (p : α → Bool) (f : α → α) (l1 l2 : List α)
    (h : ∀ x ∈ l1, p x = false) :
    updateFirst p f (l1 ++ l2) = l1 ++ updateFirst p f l2 := by
  induction l1 with
  | nil => rfl
  | cons x t ih =>
    have hx : p x = false := h x (by simp)
    simp only [List.cons_append, updateFirst, hx]
    simp only [Bool.false_eq_true, if_false, List.cons.injEq, true_and]
    exact ih (fun y hy => h y (by simp [hy]))

/-- Find-first by a session id that occurs at most once: the rewrite
replaces exactly the occurrence of that row. -/
theorem updateFirst_unique_id (l : List SessionRow) (a : SessionRow)
    (f : SessionRow → SessionRow) (hmem : a ∈ l)
    (hnodup : (l.map (·.session_id)).Nodup) :
    ∃ l1 l2, l = l1 ++ a :: l2 ∧ (∀ x ∈ l1, x.session_id ≠ a.session_id) ∧
      updateFirst (fun r => r.session_id == a.session_id) f l
        = l1 ++ f a :: l2 := by
  induction l with
  | nil => cases hmem
  | cons x t ih =>
    simp only [List.map_cons, List.nodup_cons] at hnodup
    by_cases hx : x.session_id = a.session_id
    · have hxa : x = a := by
        rcases List.mem_cons.mp hmem with h | h
        · exact h.symm
        · exact absurd (hx ▸ List.mem_map_of_mem (·.session_id) h) hnodup.1
      refine ⟨[], t, by simp [hxa], by simp, ?_⟩
      rw [updateFirst_cons_pos _ _ _ _ (by simp [hx])]
      simp [hxa]
    · have hmem2 : a ∈ t := by
        rcases List.mem_cons.mp hmem with h | h
        · exact absurd (h ▸ rfl) hx
        · exact h
      obtain ⟨l1, l2, hsplit, hne, hupd⟩ := ih hmem2 hnodup.2
      refine ⟨x :: l1, l2, by simp [hsplit], ?_, ?_⟩
      · intro y hy
        rcases List.mem_cons.mp hy with h | h
        · exact h ▸ hx
        · exact hne y h
      · simp only [updateFirst, beq_iff_eq, hx, if_false]
        simp only [List.cons_append, List.cons.injEq, true_and]
        exact hupd

theorem getLastBatteryLevel_append (l : List (Option ℤ)) (x : Option ℤ) :
    getLastBatteryLevel (l ++ [x]) = l.getLast?.join := by
  rcases l.eq_nil_or_concat with rfl | ⟨l0, y, rfl⟩
  · simp [getLastBatteryLevel]
  · rw [List.concat_eq_append]
    unfold getLastBatteryLevel
    rw [if_neg (by simp)]
    have hidx : (l0 ++ [y] ++ [x]).length - 2 = l0.length := by simp
    rw [hidx, List.append_assoc, List.get?_append_right (le_refl _)]
    simp [List.getLast?_concat]

theorem getLastBatteryLevel_mem (l : List (Option ℤ)) (p : ℤ)
    (h : getLastBatteryLevel l = some p) : some p ∈ l := by
  unfold getLastBatteryLevel at h
  split at h
  · cases h
  · exact List.get?_mem (Option.join_eq_some.mp h)

theorem findActiveSession_spec (l : List SessionRow) (a : SessionRow)
    (h : findActiveSession l = some a) : a ∈ l ∧ a.is_complete = false := by
  have hmem := List.mem_of_getLast?_eq_some h
  have := List.mem_filter.mp hmem
  exact ⟨this.1, by simpa using this.2⟩

theorem findActiveSession_none (l : List SessionRow)
    (h : findActiveSession l = none) : incompleteCount l = 0 := by
  unfold findActiveSession at h
  unfold incompleteCount
  rw [List.getLast?_eq_none_iff.mp h]
  rfl

theorem incompleteCount_append (l1 l2 : List SessionRow) :
    incompleteCount (l1 ++ l2) = incompleteCount l1 + incompleteCount l2 := by
  simp [incompleteCount, List.filter_append]

theorem incompleteCount_cons (r : SessionRow) (l : List SessionRow) :
    incompleteCount (r :: l)
      = (if r.is_complete = false then 1 else 0) + incompleteCount l := by
  by_cases hr : r.is_complete = false <;>
    simp [incompleteCount, List.filter_cons, hr, Nat.add_comm]

theorem updateSessionRow_id (timestamp : ℚ) (lvl : ℤ) (power : ℚ)
    (r : SessionRow) :
    (updateSessionRow timestamp lvl power r).session_id = r.session_id := rfl

theorem updateSessionRow_complete (timestamp : ℚ) (lvl : ℤ) (power : ℚ)
    (r : SessionRow) :
    (updateSessionRow timestamp lvl power r).is_complete = r.is_complete := rfl

theorem updateSessionRow_start (timestamp : ℚ) (lvl : ℤ) (power : ℚ)
    (r : SessionRow) :
    (updateSessionRow timestamp lvl power r).start_battery = r.start_battery :=
  rfl

theorem updateFirst_map_session_id (p : SessionRow → Bool)
    (f : SessionRow → SessionRow)
    (hf : ∀ x, (f x).session_id = x.session_id) (l : List SessionRow) :
    (updateFirst p f l).map (·.session_id) = l.map (·.session_id) := by
  induction l with
  | nil => rfl
  | cons x t ih =>
    by_cases hx : p x = true <;> simp [updateFirst, hx, ih, hf]

theorem incompleteCount_updateFirst (p : SessionRow → Bool)
    (f : SessionRow → SessionRow)
    (hf : ∀ x, (f x).is_complete = x.is_complete) (l : List SessionRow) :
    incompleteCount (updateFirst p f l) = incompleteCount l := by
  induction l with
  | nil => rfl
  | cons x t ih =>
    by_cases hx : p x = true
    · simp [updateFirst, hx, incompleteCount_cons, hf]
    · simp only [updateFirst, hx, Bool.false_eq_true, if_false]
      rw [incompleteCount_cons, incompleteCount_cons, ih]


/-- `_update_charging_session` on a uniquely-identified member row:
exactly that row is rewritten. -/
theorem updateChargingSession_surgery (s : EngineState) (a : SessionRow)
    (ts : ℚ) (lvl : ℤ) (power : ℚ) (hmem : a ∈ s.sessions)
    (hnodup : (s.sessions.map (·.session_id)).Nodup) :
    ∃ l1 l2, s.sessions = l1 ++ a :: l2 ∧
      (∀ x ∈ l1, x.session_id ≠ a.session_id) ∧
      updateChargingSession s a.session_id ts lvl power
        = { s with sessions := l1 ++ updateSessionRow ts lvl power a :: l2 } := by
  obtain ⟨l1, l2, hsplit, hne, hupd⟩ :=
    updateFirst_unique_id s.sessions a (updateSessionRow ts lvl power) hmem hnodup
  exact ⟨l1, l2, hsplit, hne, by simp [updateChargingSession, hupd]⟩

/-- `_complete_charging_session` on a uniquely-identified member row:
that row gets the final update and the completion flag. -/
theorem completeChargingSession_surgery (s : EngineState) (a : SessionRow)
    (ts : ℚ) (lvl : ℤ) (hmem : a ∈ s.sessions)
    (hnodup : (s.sessions.map (·.session_id)).Nodup) :
    ∃ l1 l2, s.sessions = l1 ++ a :: l2 ∧
      (∀ x ∈ l1, x.session_id ≠ a.session_id) ∧
      completeChargingSession s a.session_id ts lvl
        = { s with sessions :=
            l1 ++ ({ updateSessionRow ts lvl 0 a with is_complete := true }
              : SessionRow) :: l2 } := by
  obtain ⟨l1, l2, hsplit, hne, hupd⟩ :=
    updateFirst_unique_id s.sessions a (updateSessionRow ts lvl 0) hmem hnodup
  refine ⟨l1, l2, hsplit, hne, ?_⟩
  unfold completeChargingSession updateChargingSession
  simp only [hupd]
  have hleft : updateFirst (fun r => r.session_id == a.session_id)
      (fun r => { r with is_complete := true })
      (l1 ++ updateSessionRow ts lvl 0 a :: l2)
      = l1 ++ ({ updateSessionRow ts lvl 0 a with is_complete := true }
          : SessionRow) :: l2 := by
    rw [updateFirst_append_left _ _ _ _
      (fun x hx => by simpa using hne x hx)]
    rw [updateFirst_cons_pos _ _ _ _ (by simp [updateSessionRow_id])]
  simp [hleft]


theorem validateBatteryLevel_of_range (n : ℤ) (h0 : 0 ≤ n) (h100 : n ≤ 100) :
    validateBatteryLevel (some n) = .valid n := by
  simp [validateBatteryLevel, h0, h100]

theorem validateBatteryLevel_range (v : Option ℤ) (lvl : ℤ)
    (h : validateBatteryLevel v = .valid lvl) :
    v = some lvl ∧ 0 ≤ lvl ∧ lvl ≤ 100 := by
  cases v with
  | none => cases h
  | some n =>
    by_cases hr : 0 ≤ n ∧ n ≤ 100
    · simp only [validateBatteryLevel, hr, if_true] at h
      cases h
      exact ⟨rfl, hr⟩
    · simp [validateBatteryLevel, hr] at h

theorem updateSessionRow_fields (ts : ℚ) (lvl : ℤ) (pw : ℚ) (r : SessionRow)
    (h0 : 0 ≤ r.start_battery) (h100 : r.start_battery ≤ 100)
    (hlt : r.start_battery < lvl) :
    (updateSessionRow ts lvl pw r).energy_added
      = round2 (((lvl - r.start_battery : ℤ) : ℚ) / 100 * (387/5)) := by
  simp only [updateSessionRow, validateBatteryLevel_of_range r.start_battery h0 h100]
  rw [if_pos (by omega)]

/-- The inferred-charging one-shot of `_track_charging_session`
(csv_store.py lines 644-658) as a table rewrite: append a complete row
starting at the *previous* level, update its end battery to the current
level, close it.  The net effect is a single appended closed row whose
start and end times are both the current poll's timestamp. -/
theorem inferredComposite_eq (s : EngineState) (ts : ℚ) (p lvl : ℤ)
    (pw : ℚ) (loc : Option LocationInput)
    (hfresh : ∀ r ∈ s.sessions, r.session_id < s.nextId)
    (hp0 : 0 ≤ p) (hp100 : p ≤ 100) (hlt : p < lvl) :
    completeChargingSession
      (updateChargingSession (appendChargingSession s ts p pw loc true).1
        (appendChargingSession s ts p pw loc true).2 ts lvl pw)
      (appendChargingSession s ts p pw loc true).2 ts lvl
    = { battery := s.battery
        sessions := s.sessions ++
          [{ session_id := s.nextId
             start_time := ts
             end_time := some ts
             duration_minutes := 0
             start_battery := p
             end_battery := lvl
             energy_added := round2 (((lvl - p : ℤ) : ℚ) / 100 * (387/5))
             avg_power := pw
             max_power := pw
             location_lat := loc.bind (·.latitude)
             location_lon := loc.bind (·.longitude)
             is_complete := true }]
        nextId := s.nextId + 1 } := by
  have hne1 : ∀ x ∈ s.sessions, (x.session_id == s.nextId) = false := by
    intro x hx
    simpa using Nat.ne_of_lt (hfresh x hx)
  set row0 : SessionRow :=
    { session_id := s.nextId
      start_time := ts
      end_time := some ts
      duration_minutes := 0
      start_battery := p
      end_battery := p
      energy_added := 0
      avg_power := pw
      max_power := pw
      location_lat := loc.bind (fun x => x.latitude)
      location_lon := loc.bind (fun x => x.longitude)
      is_complete := true } with hrow0
  set rowF : SessionRow :=
    { session_id := s.nextId
      start_time := ts
      end_time := some ts
      duration_minutes := 0
      start_battery := p
      end_battery := lvl
      energy_added := round2 (((lvl - p : ℤ) : ℚ) / 100 * (387/5))
      avg_power := pw
      max_power := pw
      location_lat := loc.bind (fun x => x.latitude)
      location_lon := loc.bind (fun x => x.longitude)
      is_complete := true } with hrowF
  have happend : appendChargingSession s ts p pw loc true
      = ({ battery := s.battery, sessions := s.sessions ++ [row0],
           nextId := s.nextId + 1 }, s.nextId) := rfl
  rw [happend]
  have hvalidp : validateBatteryLevel (some p) = .valid p :=
    validateBatteryLevel_of_range p hp0 hp100
  have hdur : round1 0 = 0 := by simp [round1]
  have hu1 : updateSessionRow ts lvl pw row0 = rowF := by
    simp only [updateSessionRow, hrow0, hrowF, hvalidp]
    simp only [sub_self, hdur]
    have hmax : ¬(pw ≠ 0 ∧ pw > pw) := by
      rintro ⟨-, hc⟩
      exact lt_irrefl _ hc
    have hdiff : (0 : ℤ) < lvl - p := by omega
    have hnotdur : ¬((0:ℚ) > 0 ∧
        round2 (((lvl - p : ℤ) : ℚ) / 100 * (387/5)) > 0) := by
      rintro ⟨hc, -⟩
      exact lt_irrefl _ hc
    simp [hmax, hdiff, hnotdur]
  have hu2 : updateSessionRow ts lvl 0 rowF = rowF := by
    simp only [updateSessionRow, hrowF, hvalidp]
    simp only [sub_self, hdur]
    have hmax : ¬((0:ℚ) ≠ 0 ∧ (0:ℚ) > pw) := by
      rintro ⟨hc, -⟩
      exact hc rfl
    have hdiff : (0 : ℤ) < lvl - p := by omega
    have hnotdur : ¬((0:ℚ) > 0 ∧
        round2 (((lvl - p : ℤ) : ℚ) / 100 * (387/5)) > 0) := by
      rintro ⟨hc, -⟩
      exact lt_irrefl _ hc
    simp [hmax, hdiff, hnotdur]
  have hupd1 : updateChargingSession
      { battery := s.battery, sessions := s.sessions ++ [row0],
        nextId := s.nextId + 1 } s.nextId ts lvl pw
      = { battery := s.battery, sessions := s.sessions ++ [rowF],
          nextId := s.nextId + 1 } := by
    unfold updateChargingSession
    simp only
    rw [updateFirst_append_left _ _ _ _ hne1,
      updateFirst_cons_pos _ _ _ _ (by simp [hrow0]), hu1]
  rw [hupd1]
  unfold completeChargingSession updateChargingSession
  simp only
  rw [updateFirst_append_left _ _ _ _ hne1,
    updateFirst_cons_pos _ _ _ _ (by simp [hrowF]), hu2]
  rw [updateFirst_append_left _ _ _ _ hne1,
    updateFirst_cons_pos _ _ _ _ (by simp [hrowF])]

/-- The one-shot inferred-charging branch of `_track_charging_session`
(csv_store.py lines 634-659): with no charge flag, no plug flag and a
level rise of at least two points over the previous reading, the engine
appends one already-complete session — whose `start_time` is the
*current* poll's timestamp — updates its end battery, and closes it. -/
theorem track_inferred (cfg : EngineConfig) (s : EngineState) (ts : ℚ)
    (b : BatteryInput) (loc : Option LocationInput) (lvl p : ℤ)
    (hlvl : b.level = some lvl) (h0 : 0 ≤ lvl) (h100 : lvl ≤ 100)
    (hchg : b.is_charging = false) (hplug : b.is_plugged_in ≠ some true)
    (hprev : getLastBatteryLevel s.battery = some p) (hp0 : 0 ≤ p)
    (hrise : p + 2 ≤ lvl)
    (hfresh : ∀ r ∈ s.sessions, r.session_id < s.nextId) :
    trackChargingSession cfg s ts b loc
      = { battery := s.battery
          sessions := s.sessions ++
            [{ session_id := s.nextId
               start_time := ts
               end_time := some ts
               duration_minutes := 0
               start_battery := p
               end_battery := lvl
               energy_added := round2 (((lvl - p : ℤ) : ℚ) / 100 * (387/5))
               avg_power := validateChargingPower b.charging_power
               max_power := validateChargingPower b.charging_power
               location_lat := loc.bind (·.latitude)
               location_lon := loc.bind (·.longitude)
               is_complete := true }]
          nextId := s.nextId + 1 } := by
  have hvalid : validateBatteryLevel b.level = .valid lvl := by
    simp [validateBatteryLevel, hlvl, h0, h100]
  have hplugged : (b.is_plugged_in == some true) = false := by
    simpa using hplug
  have hriseb : decide (lvl ≥ p + 2) = true := by simpa using hrise
  simp only [trackChargingSession, hvalid, hprev, hplugged, hchg, hriseb]
  simp only [Bool.false_and, Bool.false_or, Bool.not_false, Bool.and_true]
  rw [if_pos trivial]
  have hp100 : p ≤ 100 := by omega
  exact inferredComposite_eq s ts p lvl _ loc hfresh hp0 hp100 (by omega)

/-- Completing the active (incomplete, member) session empties the set
of incomplete sessions and preserves the engine invariants. -/
theorem engineInv_completeActive (s : EngineState) (a : SessionRow)
    (ts : ℚ) (lvl : ℤ) (hInv : EngineInv s) (hmem : a ∈ s.sessions)
    (hflag : a.is_complete = false) :
    EngineInv (completeChargingSession s a.session_id ts lvl)
    ∧ incompleteCount (completeChargingSession s a.session_id ts lvl).sessions
        = 0
    ∧ (completeChargingSession s a.session_id ts lvl).battery = s.battery
    ∧ (completeChargingSession s a.session_id ts lvl).nextId = s.nextId := by
  obtain ⟨l1, l2, hsplit, hne, heq⟩ :=
    completeChargingSession_surgery s a ts lvl hmem hInv.nodupIds
  have hstart := hInv.startRange a hmem
  have hcount : incompleteCount l1 = 0 ∧ incompleteCount l2 = 0 := by
    have h1 := hInv.oneActive
    rw [hsplit, incompleteCount_append, incompleteCount_cons, hflag] at h1
    simp at h1
    omega
  have hmemsub : ∀ x, x ∈ l1 ∨ x ∈ l2 → x ∈ s.sessions := by
    intro x hx
    rw [hsplit]
    rcases hx with hx | hx
    · exact List.mem_append_left _ hx
    · exact List.mem_append_right _ (List.mem_cons_of_mem _ hx)
  have hids : ((completeChargingSession s a.session_id ts
      lvl).sessions.map (·.session_id)) = s.sessions.map (·.session_id) := by
    rw [heq, hsplit]
    simp [List.map_append]
    rfl
  constructor
  · refine ⟨?_, ?_, ?_, ?_, ?_, ?_⟩
    · rw [hids]
      exact hInv.nodupIds
    · intro r hr
      simp only [heq, List.mem_append, List.mem_cons] at hr
      simp only [heq]
      rcases hr with hr | hr | hr
      · exact hInv.idsLt r (hmemsub r (Or.inl hr))
      · subst hr
        exact hInv.idsLt a hmem
      · exact hInv.idsLt r (hmemsub r (Or.inr hr))
    · simp only [heq]
      rw [incompleteCount_append, incompleteCount_cons]
      simp [hcount.1, hcount.2]
    · intro r hr
      simp only [heq, List.mem_append, List.mem_cons] at hr
      rcases hr with hr | hr | hr
      · exact hInv.startRange r (hmemsub r (Or.inl hr))
      · subst hr
        exact hstart
      · exact hInv.startRange r (hmemsub r (Or.inr hr))
    · intro r hr hc hlt
      simp only [heq, List.mem_append, List.mem_cons] at hr
      rcases hr with hr | hr | hr
      · exact hInv.closedEnergy r (hmemsub r (Or.inl hr)) hc hlt
      · subst hr
        have henergy : (updateSessionRow ts lvl 0 a).energy_added
            = round2 (((lvl - a.start_battery : ℤ) : ℚ) / 100 * (387/5)) :=
          updateSessionRow_fields ts lvl 0 a hstart.1 hstart.2 hlt
        simpa using henergy
      · exact hInv.closedEnergy r (hmemsub r (Or.inr hr)) hc hlt
    · intro v hv
      simp only [heq] at hv
      exact hInv.batteryRange v hv
  · refine ⟨?_, by rw [heq], by rw [heq]⟩
    simp only [heq]
    rw [incompleteCount_append, incompleteCount_cons]
    simp [hcount.1, hcount.2]

/-- Updating the active (incomplete, member) session preserves the
engine invariants and the incomplete-session count. -/
theorem engineInv_updateActive (s : EngineState) (a : SessionRow)
    (ts : ℚ) (lvl : ℤ) (pw : ℚ) (hInv : EngineInv s) (hmem : a ∈ s.sessions)
    (hflag : a.is_complete = false) :
    EngineInv (updateChargingSession s a.session_id ts lvl pw) := by
  obtain ⟨l1, l2, hsplit, hne, heq⟩ :=
    updateChargingSession_surgery s a ts lvl pw hmem hInv.nodupIds
  have hstart := hInv.startRange a hmem
  have hmemsub : ∀ x, x ∈ l1 ∨ x ∈ l2 → x ∈ s.sessions := by
    intro x hx
    rw [hsplit]
    rcases hx with hx | hx
    · exact List.mem_append_left _ hx
    · exact List.mem_append_right _ (List.mem_cons_of_mem _ hx)
  have hids : ((updateChargingSession s a.session_id ts lvl
      pw).sessions.map (·.session_id)) = s.sessions.map (·.session_id) := by
    rw [heq, hsplit]
    simp [List.map_append]
    rfl
  refine ⟨?_, ?_, ?_, ?_, ?_, ?_⟩
  · rw [hids]
    exact hInv.nodupIds
  · intro r hr
    simp only [heq, List.mem_append, List.mem_cons] at hr
    simp only [heq]
    rcases hr with hr | hr | hr
    · exact hInv.idsLt r (hmemsub r (Or.inl hr))
    · subst hr
      exact hInv.idsLt a hmem
    · exact hInv.idsLt r (hmemsub r (Or.inr hr))
  · simp only [heq]
    have hc : incompleteCount (l1 ++ updateSessionRow ts lvl pw a :: l2)
        = incompleteCount (l1 ++ a :: l2) := by
      rw [incompleteCount_append, incompleteCount_cons,
        incompleteCount_append, incompleteCount_cons]
      rw [updateSessionRow_complete]
    rw [hc, ← hsplit]
    exact hInv.oneActive
  · intro r hr
    simp only [heq, List.mem_append, List.mem_cons] at hr
    rcases hr with hr | hr | hr
    · exact hInv.startRange r (hmemsub r (Or.inl hr))
    · subst hr
      exact hstart
    · exact hInv.startRange r (hmemsub r (Or.inr hr))
  · intro r hr hc hlt
    simp only [heq, List.mem_append, List.mem_cons] at hr
    rcases hr with hr | hr | hr
    · exact hInv.closedEnergy r (hmemsub r (Or.inl hr)) hc hlt
    · subst hr
      rw [updateSessionRow_complete] at hc
      rw [hflag] at hc
      cases hc
    · exact hInv.closedEnergy r (hmemsub r (Or.inr hr)) hc hlt
  · intro v hv
    simp only [heq] at hv
    exact hInv.batteryRange v hv

/-- Appending a fresh open session when no incomplete session exists
restores the invariants with exactly one incomplete session. -/
theorem engineInv_appendOpen (s : EngineState) (ts : ℚ) (lvl : ℤ)
    (pw : ℚ) (loc : Option LocationInput) (hInv : EngineInv s)
    (hcount : incompleteCount s.sessions = 0)
    (h0 : 0 ≤ lvl) (h100 : lvl ≤ 100) :
    EngineInv (appendChargingSession s ts lvl pw loc false).1 := by
  refine ⟨?_, ?_, ?_, ?_, ?_, ?_⟩
  · simp only [appendChargingSession, List.map_append, List.map_cons]
    rw [List.nodup_append]
    refine ⟨hInv.nodupIds, by simp, ?_⟩
    intro x hx
    simp only [List.map_nil, List.mem_cons, List.not_mem_nil, or_false]
    rcases List.mem_map.mp hx with ⟨r, hr, hrx⟩
    exact fun hcontra => absurd (hrx ▸ hcontra ▸ hInv.idsLt r hr)
      (lt_irrefl _)
  · intro r hr
    simp only [appendChargingSession, List.mem_append, List.mem_cons] at hr ⊢
    rcases hr with hr | hr | hr
    · exact Nat.lt_succ_of_lt (hInv.idsLt r hr)
    · subst hr
      exact Nat.lt_succ_self _
    · cases hr
  · simp only [appendChargingSession]
    rw [incompleteCount_append, hcount, incompleteCount_cons]
    simp [incompleteCount]
  · intro r hr
    simp only [appendChargingSession, List.mem_append, List.mem_cons] at hr
    rcases hr with hr | hr | hr
    · exact hInv.startRange r hr
    · subst hr
      exact ⟨h0, h100⟩
    · cases hr
  · intro r hr hc hlt
    simp only [appendChargingSession, List.mem_append, List.mem_cons] at hr
    rcases hr with hr | hr | hr
    · exact hInv.closedEnergy r hr hc hlt
    · subst hr
      cases hc
    · cases hr
  · intro v hv
    simp only [appendChargingSession] at hv
    exact hInv.batteryRange v hv


/-- Appending the closed inferred-session row preserves the invariants
(no incomplete row is added, so the count is untouched). -/
theorem engineInv_appendClosed (s : EngineState) (ts : ℚ) (p lvl : ℤ)
    (pw : ℚ) (loc : Option LocationInput) (hInv : EngineInv s)
    (hp0 : 0 ≤ p) (hp100 : p ≤ 100) :
    EngineInv { battery := s.battery
                sessions := s.sessions ++
                  [{ session_id := s.nextId
                     start_time := ts
                     end_time := some ts
                     duration_minutes := 0
                     start_battery := p
                     end_battery := lvl
                     energy_added := round2 (((lvl - p : ℤ) : ℚ) / 100 * (387/5))
                     avg_power := pw
                     max_power := pw
                     location_lat := loc.bind (·.latitude)
                     location_lon := loc.bind (·.longitude)
                     is_complete := true }]
                nextId := s.nextId + 1 } := by
  refine ⟨?_, ?_, ?_, ?_, ?_, ?_⟩
  · simp only [List.map_append, List.map_cons]
    rw [List.nodup_append]
    refine ⟨hInv.nodupIds, by simp, ?_⟩
    intro x hx
    simp only [List.map_nil, List.mem_cons, List.not_mem_nil, or_false]
    rcases List.mem_map.mp hx with ⟨r, hr, hrx⟩
    exact fun hcontra => absurd (hrx ▸ hcontra ▸ hInv.idsLt r hr)
      (lt_irrefl _)
  · intro r hr
    simp only [List.mem_append, List.mem_cons] at hr
    rcases hr with hr | hr | hr
    · exact Nat.lt_succ_of_lt (hInv.idsLt r hr)
    · subst hr
      exact Nat.lt_succ_self _
    · cases hr
  · simp only [incompleteCount_append, incompleteCount_cons]
    simpa [incompleteCount] using hInv.oneActive
  · intro r hr
    simp only [List.mem_append, List.mem_cons] at hr
    rcases hr with hr | hr | hr
    · exact hInv.startRange r hr
    · subst hr
      exact ⟨hp0, hp100⟩
    · cases hr
  · intro r hr hc hlt2
    simp only [List.mem_append, List.mem_cons] at hr
    rcases hr with hr | hr | hr
    · exact hInv.closedEnergy r hr hc hlt2
    · subst hr
      rfl
    · cases hr
  · intro v hv
    exact hInv.batteryRange v hv

/-- One store step of `_track_charging_session` preserves the engine
invariants. -/
theorem engineInv_track (cfg : EngineConfig) (s : EngineState) (ts : ℚ)
    (b : BatteryInput) (loc : Option LocationInput) (hInv : EngineInv s) :
    EngineInv (trackChargingSession cfg s ts b loc) := by
  cases hv : validateBatteryLevel b.level with
  | missing =>
    simp only [trackChargingSession, hv]
    exact hInv
  | invalid =>
    simp only [trackChargingSession, hv]
    exact hInv
  | valid lvl =>
    obtain ⟨hlvl, h0, h100⟩ := validateBatteryLevel_range _ _ hv
    rcases hprev : getLastBatteryLevel s.battery with _ | p
    · -- fewer than two battery rows: no rise can be inferred
      simp only [trackChargingSession, hv, hprev, Bool.and_false, Bool.or_false]
      rw [if_neg (by simp)]
      cases hact : findActiveSession s.sessions with
      | none =>
        simp only
        cases hchg : b.is_charging with
        | false =>
          rw [if_neg (by simp)]
          exact hInv
        | true =>
          rw [if_pos rfl]
          exact engineInv_appendOpen s ts lvl _ loc hInv
            (findActiveSession_none _ hact) h0 h100
      | some a =>
        obtain ⟨hmem, hflag⟩ := findActiveSession_spec _ _ hact
        simp only
        cases hchg : b.is_charging with
        | false =>
          rw [if_neg (by simp)]
          exact (engineInv_completeActive s a ts lvl hInv hmem hflag).1
        | true =>
          rw [if_pos rfl]
          cases hlu : a.end_time with
          | none => exact engineInv_updateActive s a ts lvl _ hInv hmem hflag
          | some lu =>
            simp only
            by_cases hgap : ts - lu > cfg.gapThreshold
            · rw [if_pos hgap]
              obtain ⟨hInv2, hcount2, -, -⟩ :=
                engineInv_completeActive s a lu a.end_battery hInv hmem hflag
              exact engineInv_appendOpen _ ts lvl _ loc hInv2 hcount2 h0 h100
            · rw [if_neg hgap]
              exact engineInv_updateActive s a ts lvl _ hInv hmem hflag
    · -- a previous reading exists
      have hpmem := getLastBatteryLevel_mem _ _ hprev
      have hp := hInv.batteryRange _ hpmem p rfl
      by_cases hinf : b.is_charging = false ∧ b.is_plugged_in ≠ some true
          ∧ p + 2 ≤ lvl
      · obtain ⟨hchg, hplug, hrise⟩ := hinf
        rw [track_inferred cfg s ts b loc lvl p hlvl h0 h100 hchg hplug hprev
          hp.1 hrise hInv.idsLt]
        exact engineInv_appendClosed s ts p lvl _ loc hInv hp.1 hp.2
      · simp only [trackChargingSession, hv, hprev]
        have hcond : (!(b.is_charging
              || ((b.is_plugged_in == some true) && decide (lvl > p)))
            && decide (lvl ≥ p + 2)) = false := by
          cases hchg2 : b.is_charging with
          | true => simp
          | false =>
            cases hplug2 : (b.is_plugged_in == some true) with
            | false =>
              have hnr : ¬(p + 2 ≤ lvl) := fun hr =>
                hinf ⟨hchg2, by simpa using hplug2, hr⟩
              simp [hnr]
            | true =>
              by_cases hgt : lvl > p
              · simp [hgt]
              · have hnr : ¬(p + 2 ≤ lvl) := by omega
                simp [hnr]
        rw [hcond, if_neg (by simp)]
        cases hact : findActiveSession s.sessions with
        | none =>
          simp only
          cases heff : (b.is_charging
              || ((b.is_plugged_in == some true) && decide (lvl > p))) with
          | false =>
            rw [if_neg (by simp)]
            exact hInv
          | true =>
            rw [if_pos rfl]
            exact engineInv_appendOpen s ts lvl _ loc hInv
              (findActiveSession_none _ hact) h0 h100
        | some a =>
          obtain ⟨hmem, hflag⟩ := findActiveSession_spec _ _ hact
          simp only
          cases heff : (b.is_charging
              || ((b.is_plugged_in == some true) && decide (lvl > p))) with
          | false =>
            rw [if_neg (by simp)]
            exact (engineInv_completeActive s a ts lvl hInv hmem hflag).1
          | true =>
            rw [if_pos rfl]
            cases hlu : a.end_time with
            | none => exact engineInv_updateActive s a ts lvl _ hInv hmem hflag
            | some lu =>
              simp only
              by_cases hgap : ts - lu > cfg.gapThreshold
              · rw [if_pos hgap]
                obtain ⟨hInv2, hcount2, -, -⟩ :=
                  engineInv_completeActive s a lu a.end_battery hInv hmem hflag
                exact engineInv_appendOpen _ ts lvl _ loc hInv2 hcount2 h0 h100
              · rw [if_neg hgap]
                exact engineInv_updateActive s a ts lvl _ hInv hmem hflag

/-- The engine invariants hold in every reachable state: they hold for
the empty tables and are preserved by every battery-carrying store. -/
theorem engineInv_of_reachable (cfg : EngineConfig) (s : EngineState)
    (h : ReachableEngineState cfg s) : EngineInv s := by
  induction h with
  | init =>
    exact ⟨by simp, by simp, by simp [incompleteCount], by simp, by simp,
      by simp⟩
  | step hreach hlevel ih =>
    rename_i s0 ts b loc
    unfold storeBatterySnapshot
    apply engineInv_track
    exact ⟨ih.nodupIds, ih.idsLt, ih.oneActive, ih.startRange,
      ih.closedEnergy, by
        intro v hv x hx
        rcases List.mem_append.mp hv with hv | hv
        · exact ih.batteryRange v hv x hx
        · rcases List.mem_singleton.mp hv with rfl
          exact hlevel x hx⟩

/-! ## Scheduler-grid lemmas -/

theorem sorted_head_min? (x : ℚ) (xs : List ℚ)
    (h : (x :: xs).Sorted (· ≤ ·)) : (x :: xs).min? = some x := by
  haveI : Std.Antisymm (fun x1 x2 : ℚ => x1 ≤ x2) :=
    ⟨fun h1 h2 => le_antisymm h1 h2⟩
  rw [List.min?_eq_some_iff (fun a => le_refl a) (fun a b => min_choice a b)
    (fun a b c => le_min_iff)]
  obtain ⟨hle, -⟩ := List.sorted_cons.mp h
  refine ⟨List.mem_cons_self _ _, ?_⟩
  intro b hb
  rcases List.mem_cons.mp hb with rfl | hb
  · exact le_refl _
  · exact hle b hb

theorem futureCollectionTimes_sorted (dl : ℕ) (base now : ℚ)
    (hbase : 0 ≤ base) : (futureCollectionTimes dl base now).Sorted (· ≤ ·) := by
  unfold futureCollectionTimes
  apply List.Pairwise.filter
  rw [List.pairwise_map]
  apply List.Pairwise.imp ?_ (List.pairwise_lt_range dl)
  intro i j hij
  exact mul_le_mul_of_nonneg_left (Nat.cast_le.mpr (le_of_lt hij)) hbase

theorem calculateNext_eq_smallestSlot (dl : ℕ) (now : ℚ) :
    calculateNextCollectionTime dl now = specNextPollFloorDivision dl now := by
  unfold calculateNextCollectionTime specNextPollFloorDivision
  have hbase : (0:ℚ) ≤ (collectionIntervalMinutes dl : ℚ) := by positivity
  have hs := futureCollectionTimes_sorted dl
    ((collectionIntervalMinutes dl : ℚ)) now hbase
  revert hs
  unfold futureCollectionTimes
  cases hL : ((List.range dl).map
      (fun (i : ℕ) => ((collectionIntervalMinutes dl : ℚ)) * (i : ℚ))).filter
      (fun t => now < t) with
  | nil =>
    intro
    simp [hL]
  | cons x xs =>
    intro hs
    simp [hL, sorted_head_min? x xs hs]

/-- The session-start branch: actively charging with no open session
appends one open row. -/
theorem track_startBranch (cfg : EngineConfig) (s : EngineState) (ts : ℚ)
    (b : BatteryInput) (loc : Option LocationInput) (lvl : ℤ)
    (hv : validateBatteryLevel b.level = .valid lvl)
    (hchg : b.is_charging = true)
    (hact : findActiveSession s.sessions = none) :
    trackChargingSession cfg s ts b loc
      = (appendChargingSession s ts lvl
          (validateChargingPower b.charging_power) loc false).1 := by
  simp only [trackChargingSession, hv, hchg, Bool.true_or, Bool.not_true,
    Bool.false_and]
  rw [if_neg (by simp)]
  simp only [hact]
  rw [if_pos trivial]

/-- The session-update branch: actively charging onto an open session
whose stored `end_time` is still null. -/
theorem track_updateBranchNoEnd (cfg : EngineConfig) (s : EngineState)
    (ts : ℚ) (b : BatteryInput) (loc : Option LocationInput) (lvl : ℤ)
    (a : SessionRow)
    (hv : validateBatteryLevel b.level = .valid lvl)
    (hchg : b.is_charging = true)
    (hact : findActiveSession s.sessions = some a)
    (hend : a.end_time = none) :
    trackChargingSession cfg s ts b loc
      = updateChargingSession s a.session_id ts lvl
          (validateChargingPower b.charging_power) := by
  simp only [trackChargingSession, hv, hchg, Bool.true_or, Bool.not_true,
    Bool.false_and]
  rw [if_neg (by simp)]
  simp only [hact, hend]
  rw [if_pos trivial]

/-- The session-close branch: no charging signal, no inferred rise, an
open session to close. -/
theorem track_closeBranch (cfg : EngineConfig) (s : EngineState) (ts : ℚ)
    (b : BatteryInput) (loc : Option LocationInput) (lvl : ℤ)
    (a : SessionRow)
    (hv : validateBatteryLevel b.level = .valid lvl)
    (hchg : b.is_charging = false)
    (hplug : b.is_plugged_in ≠ some true)
    (hnorise : ∀ p, getLastBatteryLevel s.battery = some p → lvl < p + 2)
    (hact : findActiveSession s.sessions = some a) :
    trackChargingSession cfg s ts b loc
      = completeChargingSession s a.session_id ts lvl := by
  have hplugged : (b.is_plugged_in == some true) = false := by simpa using hplug
  rcases hprev : getLastBatteryLevel s.battery with _ | p
  · simp only [trackChargingSession, hv, hchg, hplugged, hprev,
      Bool.false_and, Bool.false_or, Bool.and_false]
    rw [if_neg (by simp)]
    simp only [hact]
    rw [if_neg (by simp)]
  · have hnr := hnorise p hprev
    have hlt : decide (lvl ≥ p + 2) = false := by
      simpa using not_le.mpr (by omega : lvl < p + 2)
    simp only [trackChargingSession, hv, hchg, hplugged, hprev,
      Bool.false_and, Bool.false_or, hlt, Bool.and_false]
    rw [if_neg (by simp)]
    simp only [hact]
    rw [if_neg (by simp)]

/-- The idle branch: no signal, no inferred rise, no open session. -/
theorem track_idleBranch (cfg : EngineConfig) (s : EngineState) (ts : ℚ)
    (b : BatteryInput) (loc : Option LocationInput) (lvl : ℤ)
    (hv : validateBatteryLevel b.level = .valid lvl)
    (hchg : b.is_charging = false)
    (hplug : b.is_plugged_in ≠ some true)
    (hnorise : ∀ p, getLastBatteryLevel s.battery = some p → lvl < p + 2)
    (hact : findActiveSession s.sessions = none) :
    trackChargingSession cfg s ts b loc = s := by
  have hplugged : (b.is_plugged_in == some true) = false := by simpa using hplug
  rcases hprev : getLastBatteryLevel s.battery with _ | p
  · simp only [trackChargingSession, hv, hchg, hplugged, hprev,
      Bool.false_and, Bool.false_or, Bool.and_false]
    rw [if_neg (by simp)]
    simp only [hact]
    rw [if_neg (by simp)]
  · have hnr := hnorise p hprev
    have hlt : decide (lvl ≥ p + 2) = false := by
      simpa using not_le.mpr (by omega : lvl < p + 2)
    simp only [trackChargingSession, hv, hchg, hplugged, hprev,
      Bool.false_and, Bool.false_or, hlt, Bool.and_false]
    rw [if_neg (by simp)]
    simp only [hact]
    rw [if_neg (by simp)]

theorem validateChargingPower_zero : validateChargingPower (some 0) = 0 := by
  norm_num [validateChargingPower]

/-- `store_vehicle_data` on a snapshot meeting the inferred-charging
conditions (no charge flag, no plug flag, level at least 2 points above
the previous reading): the battery row is appended and the engine adds
exactly one complete session stamped with the current poll's time. -/
theorem storeBatterySnapshot_inferred (cfg : EngineConfig)
    (B : List (Option ℤ)) (S : List SessionRow) (n : ℕ) (ts : ℚ)
    (prev cur : ℤ) (b : BatteryInput) (loc : Option LocationInput)
    (hfresh : ∀ r ∈ S, r.session_id < n)
    (hlast : B.getLast? = some (some prev))
    (hlvl : b.level = some cur)
    (hchg : b.is_charging = false)
    (hplug : b.is_plugged_in ≠ some true)
    (h0 : 0 ≤ prev) (h100 : cur ≤ 100)
    (hrise : prev + 2 ≤ cur) :
    storeBatterySnapshot cfg ⟨B, S, n⟩ ts b loc
      = ⟨B ++ [b.level],
         S ++ [{ session_id := n, start_time := ts, end_time := some ts,
                 duration_minutes := 0, start_battery := prev,
                 end_battery := cur,
                 energy_added :=
                   round2 (((cur - prev : ℤ) : ℚ) / 100 * (387/5)),
                 avg_power := validateChargingPower b.charging_power,
                 max_power := validateChargingPower b.charging_power,
                 location_lat := loc.bind (·.latitude),
                 location_lon := loc.bind (·.longitude),
                 is_complete := true }],
         n + 1⟩ := by
  unfold storeBatterySnapshot
  have hprev : getLastBatteryLevel (B ++ [b.level]) = some prev := by
    rw [getLastBatteryLevel_append, hlast]
    rfl
  exact track_inferred cfg ⟨B ++ [b.level], S, n⟩ ts b loc cur prev hlvl
    (by omega) h100 hchg hplug hprev h0 hrise hfresh

/-- Evaluation of the spec scenario: the first poll leaves the session
table empty, the second creates exactly one inferred complete session
stamped with the second poll's time 648. -/
theorem inferredScenarioTrace_eq :
    inferredScenarioTrace
      = ⟨[some 60, some 68],
         [{ session_id := 0, start_time := 648, end_time := some 648,
            duration_minutes := 0, start_battery := 60, end_battery := 68,
            energy_added := round2 (((68 - 60 : ℤ) : ℚ) / 100 * (387/5)),
            avg_power := 0, max_power := 0,
            location_lat := none, location_lon := none,
            is_complete := true }], 1⟩ := by
  have h1 : storeBatterySnapshot ⟨72, 387/5⟩ ⟨[], [], 0⟩ 600
      ⟨some 60, false, none, some 0⟩ none = ⟨[some 60], [], 0⟩ := by
    unfold storeBatterySnapshot
    exact track_idleBranch _ _ _ _ _ 60 (by decide) rfl (by decide)
      (fun p hp => by cases hp) rfl
  unfold inferredScenarioTrace
  rw [h1]
  have h2 := storeBatterySnapshot_inferred ⟨72, 387/5⟩ [some 60] [] 0 648 60 68
    ⟨some 68, false, none, some 0⟩ none (by simp) rfl rfl rfl (by decide)
    (by decide) (by decide) (by decide)
  rw [h2]
  simp [validateChargingPower_zero]

/-- Evaluation of `capacityTrace`: the open session from the charging
poll, plus the inferred complete session — whose energy was computed
from 77.4, not the configured 100. -/
theorem capacityTrace_eq :
    capacityTrace
      = ⟨[some 60, some 68],
         [{ session_id := 0, start_time := 600, end_time := none,
            duration_minutes := 0, start_battery := 60, end_battery := 60,
            energy_added := 0, avg_power := 0, max_power := 0,
            location_lat := none, location_lon := none, is_complete := false },
          { session_id := 1, start_time := 648, end_time := some 648,
            duration_minutes := 0, start_battery := 60, end_battery := 68,
            energy_added := round2 (((68 - 60 : ℤ) : ℚ) / 100 * (387/5)),
            avg_power := 0, max_power := 0,
            location_lat := none, location_lon := none,
            is_complete := true }], 2⟩ := by
  have h1 : storeBatterySnapshot ⟨72, 100⟩ ⟨[], [], 0⟩ 600
      ⟨some 60, true, none, some 0⟩ none
      = ⟨[some 60],
         [{ session_id := 0, start_time := 600, end_time := none,
            duration_minutes := 0, start_battery := 60, end_battery := 60,
            energy_added := 0, avg_power := 0, max_power := 0,
            location_lat := none, location_lon := none,
            is_complete := false }], 1⟩ := by
    unfold storeBatterySnapshot
    show trackChargingSession ⟨72, 100⟩ ⟨[some 60], [], 0⟩ 600
      ⟨some 60, true, none, some 0⟩ none = _
    rw [track_startBranch ⟨72, 100⟩ ⟨[some 60], [], 0⟩ 600
      ⟨some 60, true, none, some 0⟩ none 60 (by decide) rfl rfl]
    simp [appendChargingSession, validateChargingPower_zero]
  unfold capacityTrace
  rw [h1]
  have h2 := storeBatterySnapshot_inferred ⟨72, 100⟩ [some 60]
    [{ session_id := 0, start_time := 600, end_time := none,
       duration_minutes := 0, start_battery := 60, end_battery := 60,
       energy_added := 0, avg_power := 0, max_power := 0,
       location_lat := none, location_lon := none, is_complete := false }]
    1 648 60 68 ⟨some 68, false, none, some 0⟩ none
    (by intro r hr
        rw [List.mem_singleton] at hr
        subst hr
        decide)
    rfl rfl rfl (by decide) (by decide) (by decide) (by decide)
  rw [h2]
  simp [validateChargingPower_zero]

/-- Evaluation of `riseFallTrace`: the session opened at 60%, updated to
62% (energy 1.55 kWh), then closed back at 60% — the stored energy stays
at the peak value 1.55 although `end_battery = start_battery`. -/
theorem riseFallTrace_eq :
    riseFallTrace
      = ⟨[some 60, some 62, some 60],
         [{ session_id := 0, start_time := 600, end_time := some 696,
            duration_minutes := 96, start_battery := 60, end_battery := 60,
            energy_added := 31/20, avg_power := 97/100, max_power := 0,
            location_lat := none, location_lon := none,
            is_complete := true }], 1⟩ := by
  have h1 : storeBatterySnapshot ⟨72, 387/5⟩ ⟨[], [], 0⟩ 600
      ⟨some 60, true, none, some 0⟩ none
      = ⟨[some 60],
         [{ session_id := 0, start_time := 600, end_time := none,
            duration_minutes := 0, start_battery := 60, end_battery := 60,
            energy_added := 0, avg_power := 0, max_power := 0,
            location_lat := none, location_lon := none,
            is_complete := false }], 1⟩ := by
    unfold storeBatterySnapshot
    show trackChargingSession ⟨72, 387/5⟩ ⟨[some 60], [], 0⟩ 600
      ⟨some 60, true, none, some 0⟩ none = _
    rw [track_startBranch ⟨72, 387/5⟩ ⟨[some 60], [], 0⟩ 600
      ⟨some 60, true, none, some 0⟩ none 60 (by decide) rfl rfl]
    simp [appendChargingSession, validateChargingPower_zero]
  have hu1 : updateSessionRow 648 62 (validateChargingPower (some 0))
      { session_id := 0, start_time := 600, end_time := none,
        duration_minutes := 0, start_battery := 60, end_battery := 60,
        energy_added := 0, avg_power := 0, max_power := 0,
        location_lat := none, location_lon := none, is_complete := false }
      = { session_id := 0, start_time := 600, end_time := some 648,
          duration_minutes := 48, start_battery := 60, end_battery := 62,
          energy_added := 31/20, avg_power := 97/50, max_power := 0,
          location_lat := none, location_lon := none,
          is_complete := false } := by
    rw [validateChargingPower_zero]
    simp only [updateSessionRow]
    norm_num [validateBatteryLevel, round2, round1, round_eq]
  have h2 : storeBatterySnapshot ⟨72, 387/5⟩
      ⟨[some 60],
       [{ session_id := 0, start_time := 600, end_time := none,
          duration_minutes := 0, start_battery := 60, end_battery := 60,
          energy_added := 0, avg_power := 0, max_power := 0,
          location_lat := none, location_lon := none,
          is_complete := false }], 1⟩ 648
      ⟨some 62, true, none, some 0⟩ none
      = ⟨[some 60, some 62],
         [{ session_id := 0, start_time := 600, end_time := some 648,
            duration_minutes := 48, start_battery := 60, end_battery := 62,
            energy_added := 31/20, avg_power := 97/50, max_power := 0,
            location_lat := none, location_lon := none,
            is_complete := false }], 1⟩ := by
    unfold storeBatterySnapshot
    show trackChargingSession ⟨72, 387/5⟩
      ⟨[some 60, some 62],
       [{ session_id := 0, start_time := 600, end_time := none,
          duration_minutes := 0, start_battery := 60, end_battery := 60,
          energy_added := 0, avg_power := 0, max_power := 0,
          location_lat := none, location_lon := none,
          is_complete := false }], 1⟩ 648
      ⟨some 62, true, none, some 0⟩ none = _
    rw [track_updateBranchNoEnd ⟨72, 387/5⟩
      ⟨[some 60, some 62],
       [{ session_id := 0, start_time := 600, end_time := none,
          duration_minutes := 0, start_battery := 60, end_battery := 60,
          energy_added := 0, avg_power := 0, max_power := 0,
          location_lat := none, location_lon := none,
          is_complete := false }], 1⟩ 648
      ⟨some 62, true, none, some 0⟩ none 62
      { session_id := 0, start_time := 600, end_time := none,
        duration_minutes := 0, start_battery := 60, end_battery := 60,
        energy_added := 0, avg_power := 0, max_power := 0,
        location_lat := none, location_lon := none, is_complete := false }
      (by decide) rfl rfl rfl]
    unfold updateChargingSession
    simp only [updateFirst]
    rw [if_pos (by decide)]
    rw [hu1]
  have hu2 : updateSessionRow 696 60 0
      { session_id := 0, start_time := 600, end_time := some 648,
        duration_minutes := 48, start_battery := 60, end_battery := 62,
        energy_added := 31/20, avg_power := 97/50, max_power := 0,
        location_lat := none, location_lon := none, is_complete := false }
      = { session_id := 0, start_time := 600, end_time := some 696,
          duration_minutes := 96, start_battery := 60, end_battery := 60,
          energy_added := 31/20, avg_power := 97/100, max_power := 0,
          location_lat := none, location_lon := none,
          is_complete := false } := by
    simp only [updateSessionRow]
    norm_num [validateBatteryLevel, round2, round1, round_eq]
  unfold riseFallTrace
  rw [h1, h2]
  unfold storeBatterySnapshot
  show trackChargingSession ⟨72, 387/5⟩
    ⟨[some 60, some 62, some 60],
     [{ session_id := 0, start_time := 600, end_time := some 648,
        duration_minutes := 48, start_battery := 60, end_battery := 62,
        energy_added := 31/20, avg_power := 97/50, max_power := 0,
        location_lat := none, location_lon := none,
        is_complete := false }], 1⟩ 696
    ⟨some 60, false, none, some 0⟩ none = _
  rw [track_closeBranch ⟨72, 387/5⟩
    ⟨[some 60, some 62, some 60],
     [{ session_id := 0, start_time := 600, end_time := some 648,
        duration_minutes := 48, start_battery := 60, end_battery := 62,
        energy_added := 31/20, avg_power := 97/50, max_power := 0,
        location_lat := none, location_lon := none,
        is_complete := false }], 1⟩ 696 ⟨some 60, false, none, some 0⟩
    none 60
    { session_id := 0, start_time := 600, end_time := some 648,
      duration_minutes := 48, start_battery := 60, end_battery := 62,
      energy_added := 31/20, avg_power := 97/50, max_power := 0,
      location_lat := none, location_lon := none, is_complete := false }
    (by decide) rfl (by decide)
    (by intro p hp
        simp [getLastBatteryLevel] at hp
        omega)
    rfl]
  unfold completeChargingSession updateChargingSession
  simp only [updateFirst]
  rw [if_pos (by decide), hu2]

/-! ## Claim theorems -/

theorem levelBoundOf (n : ℤ) (h0 : 0 ≤ n) (h100 : n ≤ 100) :
    ∀ v : ℤ, (some n : Option ℤ) = some v → 0 ≤ v ∧ v ≤ 100 := by
  intro v hv
  injection hv with h
  omega

theorem backoffAfterHits_zero : backoffAfterHits 0 = 1 := rfl

theorem backoffAfterHits_succ (n : ℕ) :
    backoffAfterHits (n + 1) = min (backoffAfterHits n * (3/2)) 4 := by
  unfold backoffAfterHits
  rw [Function.iterate_succ_apply']
  rfl

/-- C1: for every governor state, `can_make_call` — after the automatic
reset performed when the stored counter date is earlier than today —
returns true exactly when `calls_today < daily_limit`; at
`calls_today = daily_limit - 1` it returns true and at
`calls_today = daily_limit` it returns false. -/
theorem claimC1_can_make_call_boundary (dl : ℕ) (today : ℤ)
    (s : RateLimitState) (hdl : 1 ≤ dl) :
    ((canMakeCall dl today s).1 = true ↔
      (maybeResetDay today s).calls_today < dl)
    ∧ ((maybeResetDay today s).calls_today = dl - 1 →
      (canMakeCall dl today s).1 = true)
    ∧ ((maybeResetDay today s).calls_today = dl →
      (canMakeCall dl today s).1 = false) := by
  refine ⟨by simp [canMakeCall], ?_, ?_⟩
  · intro h
    simp only [canMakeCall, decide_eq_true_eq, h]
    omega
  · intro h
    simp [canMakeCall, h]

/-- Witness for C1 at the boundary states of the default limit 30. -/
theorem claimC1_witness :
    1 ≤ 30
    ∧ (((canMakeCall 30 10 ⟨29, 10, none, 1, []⟩).1 = true ↔
        (maybeResetDay 10 ⟨29, 10, none, 1, []⟩).calls_today < 30)
      ∧ ((maybeResetDay 10 ⟨29, 10, none, 1, []⟩).calls_today = 30 - 1 →
        (canMakeCall 30 10 ⟨29, 10, none, 1, []⟩).1 = true)
      ∧ ((maybeResetDay 10 ⟨29, 10, none, 1, []⟩).calls_today = 30 →
        (canMakeCall 30 10 ⟨29, 10, none, 1, []⟩).1 = false)) :=
  ⟨by norm_num,
   claimC1_can_make_call_boundary 30 10 ⟨29, 10, none, 1, []⟩ (by norm_num)⟩

/-- C5: every `record_rate_limit_hit` sets the multiplier to
`min(previous × 1.5, 4.0)`; starting from 1.0, four hits give 1.5,
2.25, 3.375, then 4.0; and no number of hits pushes it beyond 4.0. -/
theorem claimC5_backoff_clamped :
    (∀ s : RateLimitState, (recordRateLimitHit s).backoff_multiplier
        = min (s.backoff_multiplier * (3/2)) 4)
    ∧ backoffAfterHits 1 = 3/2 ∧ backoffAfterHits 2 = 9/4
    ∧ backoffAfterHits 3 = 27/8 ∧ backoffAfterHits 4 = 4
    ∧ (∀ n : ℕ, backoffAfterHits n ≤ 4) := by
  have h1 : backoffAfterHits 1 = 3/2 := by
    rw [backoffAfterHits_succ, backoffAfterHits_zero]
    norm_num [min_def]
  have h2 : backoffAfterHits 2 = 9/4 := by
    rw [backoffAfterHits_succ, h1]
    norm_num [min_def]
  have h3 : backoffAfterHits 3 = 27/8 := by
    rw [backoffAfterHits_succ, h2]
    norm_num [min_def]
  have h4 : backoffAfterHits 4 = 4 := by
    rw [backoffAfterHits_succ, h3]
    norm_num [min_def]
  refine ⟨fun s => rfl, h1, h2, h3, h4, ?_⟩
  intro n
  cases n with
  | zero =>
    rw [backoffAfterHits_zero]
    norm_num
  | succ m =>
    rw [backoffAfterHits_succ]
    exact min_le_right _ _

/-- C9 (counterexample): with `daily_limit = 7` at minute 1233 of the
day, the code (floor division, slots 0, 205, …, 1230) finds no slot left
today and returns tomorrow's midnight (minute 1440), while the claim's
real-division grid (slots i·1440/7) still has slot 6·1440/7 = 8640/7 ≈
1234.3 strictly in the future. -/
theorem claimC9_counterexample :
    calculateNextCollectionTime 7 1233 = 1440
    ∧ specNextPollRealDivision 7 1233 = 8640 / 7
    ∧ (1440 : ℚ) ≠ 8640 / 7 := by
  have hrange : List.range 7 = [0, 1, 2, 3, 4, 5, 6] := rfl
  refine ⟨?_, ?_, by norm_num⟩
  · unfold calculateNextCollectionTime futureCollectionTimes
      collectionIntervalMinutes
    rw [hrange]
    norm_num [List.filter_cons, List.filter_nil]
  · unfold specNextPollRealDivision
    rw [hrange]
    norm_num [List.filter_cons, List.filter_nil]

/-- C9 (amended): with no last call time, the next poll time computed by
the scheduler equals the smallest grid slot `midnight + i × base`
strictly after now for `i ∈ [0, daily_limit)` — where
`base = ⌊(24 × 60) / daily_limit⌋` is the floor division the source
performs — and equals tomorrow's midnight when no such slot remains
today. -/
theorem claimC9_next_poll_grid (dl : ℕ) (now : ℚ) :
    calculateNextCollectionTime dl now = specNextPollFloorDivision dl now :=
  calculateNext_eq_smallestSlot dl now

/-- C6 (counterexample): a new payload with no vendor timestamp against
a previous payload that has one is classified *fresh* when the raw
payloads differ — the digest override applies to this case too. -/
theorem claimC6_counterexample :
    extractRemoteTimestamp ⟨none, none, none, "A"⟩ = none
    ∧ (extractRemoteTimestamp ⟨some 0, none, none, "B"⟩).isSome = true
    ∧ isRemoteDataFresh ⟨none, none, none, "A"⟩
        (some ⟨some 0, none, none, "B"⟩) = true := by
  refine ⟨rfl, rfl, ?_⟩
  decide

/-- C6 (amended): when only the previous payload carries a
vendor-updated timestamp, the classifier returns not fresh exactly when
the raw-payload signatures agree; differing raw contents override the
verdict to fresh. -/
theorem claimC6_only_prev_timestamp (newP prevP : Payload)
    (hn : extractRemoteTimestamp newP = none)
    (hp : (extractRemoteTimestamp prevP).isSome = true) :
    isRemoteDataFresh newP (some prevP)
      = decide (newP.rawSerialized ≠ prevP.rawSerialized) := by
  obtain ⟨t, ht⟩ := Option.isSome_iff_exists.mp hp
  by_cases hs : newP.rawSerialized = prevP.rawSerialized <;>
    simp [isRemoteDataFresh, hn, ht, rawDataSignature, hs]

/-- Witness for C6: same raw contents, so the verdict is not fresh. -/
theorem claimC6_witness :
    isRemoteDataFresh ⟨none, none, none, "C"⟩ (some ⟨some 5, none, none, "C"⟩)
      = decide ((Payload.mk none none none "C").rawSerialized
          ≠ (Payload.mk (some 5) none none "C").rawSerialized) :=
  claimC6_only_prev_timestamp ⟨none, none, none, "C"⟩
    ⟨some 5, none, none, "C"⟩ rfl rfl

/-- C7 (counterexample): a payload with no vendor timestamp replayed
against itself is classified fresh (the both-timestamps-missing rule
wins), so `is_fresh(x, x)` is not false for every payload. -/
theorem claimC7_counterexample :
    isRemoteDataFresh ⟨none, none, none, "A"⟩
      (some ⟨none, none, none, "A"⟩) = true := by
  decide

/-- C7 (amended): for every payload x carrying a vendor timestamp,
`is_fresh(x, x)` is false; `is_fresh(x, nil)` is true for every payload;
a timestamp-less payload replayed against itself is classified fresh. -/
theorem claimC7_idempotence (x : Payload) :
    ((extractRemoteTimestamp x).isSome = true →
      isRemoteDataFresh x (some x) = false)
    ∧ isRemoteDataFresh x none = true := by
  constructor
  · intro h
    obtain ⟨t, ht⟩ := Option.isSome_iff_exists.mp h
    simp [isRemoteDataFresh, ht, rawDataSignature]
  · cases he : extractRemoteTimestamp x <;> simp [isRemoteDataFresh, he]

/-- Witness for C7 at a timestamped payload. -/
theorem claimC7_witness :
    isRemoteDataFresh ⟨some 7, none, none, "D"⟩
        (some ⟨some 7, none, none, "D"⟩) = false
    ∧ isRemoteDataFresh ⟨some 7, none, none, "D"⟩ none = true :=
  ⟨(claimC7_idempotence ⟨some 7, none, none, "D"⟩).1 rfl,
   (claimC7_idempotence ⟨some 7, none, none, "D"⟩).2⟩

/-- C8: re-ingesting a trip whose dedup key is already present is a
no-op — storing the same TripRecord twice leaves the row count for that
key at exactly one. -/
theorem claimC8_trip_dedup (table : List TripRow) (t : TripRow)
    (ts1 ts2 : String) (h : tripKeyCount table (tripId t) = 0) :
    storeTrips (storeTrips table ts1 [t]) ts2 [t] = storeTrips table ts1 [t]
    ∧ tripKeyCount (storeTrips (storeTrips table ts1 [t]) ts2 [t])
        (tripId t) = 1 := by
  have hfilter : table.filter (fun r => tripId r = tripId t) = [] :=
    List.length_eq_zero.mp h
  have hnot : tripId t ∉ table.map tripId := by
    intro hmem
    rcases List.mem_map.mp hmem with ⟨r, hr, hrid⟩
    have hrmem : r ∈ table.filter (fun r => tripId r = tripId t) :=
      List.mem_filter.mpr ⟨hr, by simp [hrid]⟩
    rw [hfilter] at hrmem
    cases hrmem
  have hid2 : tripId { t with timestamp := ts1 } = tripId t := rfl
  have hstep1 : storeTrips table ts1 [t]
      = table ++ [{ t with timestamp := ts1 }] := by
    unfold storeTrips
    simp only [List.foldl_cons, List.foldl_nil]
    rw [if_neg hnot]
    simp
  have hmem2 : tripId t
      ∈ (table ++ [{ t with timestamp := ts1 }]).map tripId := by
    rw [List.map_append]
    exact List.mem_append_right _ (by simp [hid2])
  have hstep2 : storeTrips (table ++ [{ t with timestamp := ts1 }]) ts2 [t]
      = table ++ [{ t with timestamp := ts1 }] := by
    unfold storeTrips
    simp only [List.foldl_cons, List.foldl_nil]
    rw [if_pos hmem2]
    simp
  refine ⟨by rw [hstep1, hstep2], ?_⟩
  rw [hstep1, hstep2]
  unfold tripKeyCount
  rw [List.filter_append, hfilter]
  simp [hid2]

/-- Witness for C8 on a concrete trip with an empty table. -/
theorem claimC8_witness :
    storeTrips
        (storeTrips [] "t1" [⟨some "2024-01-15", "25.5", some "5000.0",
          "t0", "x"⟩]) "t2"
        [⟨some "2024-01-15", "25.5", some "5000.0", "t0", "x"⟩]
      = storeTrips [] "t1" [⟨some "2024-01-15", "25.5", some "5000.0",
          "t0", "x"⟩]
    ∧ tripKeyCount
        (storeTrips
          (storeTrips [] "t1" [⟨some "2024-01-15", "25.5", some "5000.0",
            "t0", "x"⟩]) "t2"
          [⟨some "2024-01-15", "25.5", some "5000.0", "t0", "x"⟩])
        (tripId ⟨some "2024-01-15", "25.5", some "5000.0", "t0", "x"⟩)
      = 1 :=
  claimC8_trip_dedup [] ⟨some "2024-01-15", "25.5", some "5000.0", "t0", "x"⟩
    "t1" "t2" rfl

/-- C2 (counterexample): in the spec's own scenario (levels 60 then 68,
48 minutes apart, no charge or plug flags) the engine creates exactly
one complete session, but its `start_time` is the *current* reading's
time 648, not the earlier reading's time 600. -/
theorem claimC2_counterexample :
    inferredScenarioTrace.sessions.map
        (fun r => (r.start_time, r.end_time, r.start_battery,
          r.end_battery, r.is_complete))
      = [(648, some 648, 60, 68, true)]
    ∧ (648 : ℚ) ≠ 600 := by
  rw [inferredScenarioTrace_eq]
  exact ⟨rfl, by norm_num⟩

/-- C2 (amended): when two consecutive readings show neither
`is_charging` nor `is_plugged_in` and the level rose by at least two
points, the engine creates exactly one complete session — with
`start_time` and `end_time` both equal to the *current* reading's time,
`start_battery` the previous level, `end_battery` the current level, and
`is_complete` true. -/
theorem claimC2_inferred_session (cfg : EngineConfig)
    (B : List (Option ℤ)) (S : List SessionRow) (n : ℕ) (ts : ℚ)
    (prev cur : ℤ) (b : BatteryInput) (loc : Option LocationInput)
    (hfresh : ∀ r ∈ S, r.session_id < n)
    (hlast : B.getLast? = some (some prev))
    (hlvl : b.level = some cur)
    (hchg : b.is_charging = false)
    (hplug : b.is_plugged_in ≠ some true)
    (h0 : 0 ≤ prev) (h100 : cur ≤ 100)
    (hrise : prev + 2 ≤ cur) :
    storeBatterySnapshot cfg ⟨B, S, n⟩ ts b loc
      = ⟨B ++ [b.level],
         S ++ [{ session_id := n, start_time := ts, end_time := some ts,
                 duration_minutes := 0, start_battery := prev,
                 end_battery := cur,
                 energy_added :=
                   round2 (((cur - prev : ℤ) : ℚ) / 100 * (387/5)),
                 avg_power := validateChargingPower b.charging_power,
                 max_power := validateChargingPower b.charging_power,
                 location_lat := loc.bind (·.latitude),
                 location_lon := loc.bind (·.longitude),
                 is_complete := true }],
         n + 1⟩ :=
  storeBatterySnapshot_inferred cfg B S n ts prev cur b loc hfresh hlast
    hlvl hchg hplug h0 h100 hrise

/-- Witness for C2 on the spec scenario's inputs. -/
theorem claimC2_witness :
    storeBatterySnapshot ⟨72, 387/5⟩ ⟨[some 60], [], 0⟩ 648
        ⟨some 68, false, none, some 0⟩ none
      = ⟨[some 60, some 68],
         [{ session_id := 0, start_time := 648, end_time := some 648,
            duration_minutes := 0, start_battery := 60, end_battery := 68,
            energy_added := round2 (((68 - 60 : ℤ) : ℚ) / 100 * (387/5)),
            avg_power := validateChargingPower (some 0),
            max_power := validateChargingPower (some 0),
            location_lat := none, location_lon := none,
            is_complete := true }], 1⟩ :=
  claimC2_inferred_session ⟨72, 387/5⟩ [some 60] [] 0 648 60 68
    ⟨some 68, false, none, some 0⟩ none (by simp) rfl rfl rfl (by decide)
    (by decide) (by decide) (by decide)

/-- Reachability of the inference-scenario trace from empty tables. -/
theorem inferredScenarioTrace_reachable :
    ReachableEngineState ⟨72, 387/5⟩ inferredScenarioTrace :=
  ReachableEngineState.step
    (ReachableEngineState.step ReachableEngineState.init
      (levelBoundOf 60 (by norm_num) (by norm_num)))
    (levelBoundOf 68 (by norm_num) (by norm_num))

/-- C3: after any sequence of store operations starting from empty
tables, the charging-sessions table holds at most one session with
`is_complete = false`. -/
theorem claimC3_at_most_one_incomplete (cfg : EngineConfig)
    (s : EngineState) (h : ReachableEngineState cfg s) :
    incompleteCount s.sessions ≤ 1 :=
  (engineInv_of_reachable cfg s h).oneActive

/-- Witness for C3 at a concrete reachable two-poll state. -/
theorem claimC3_witness :
    incompleteCount inferredScenarioTrace.sessions ≤ 1 :=
  claimC3_at_most_one_incomplete ⟨72, 387/5⟩ inferredScenarioTrace
    inferredScenarioTrace_reachable

/-- C4 (counterexample): a closed session of a run configured with
`battery_capacity_kwh = 100` carries energy 6.19 = round(0.08 × 77.4, 2)
— not round(0.08 × 100, 2) = 8 — because `_update_charging_session`
hardcodes 77.4; and under the default capacity a session that rose to
62% but closed back at 60% keeps energy 1.55 although the claim's
formula gives 0. -/
theorem claimC4_counterexample :
    (∃ r ∈ capacityTrace.sessions, r.is_complete = true
      ∧ r.energy_added ≠ specEnergyFormula 100 r)
    ∧ (∃ r ∈ riseFallTrace.sessions, r.is_complete = true
      ∧ r.energy_added ≠ specEnergyFormula (387/5) r) := by
  constructor
  · rw [capacityTrace_eq]
    refine ⟨_, List.mem_cons_of_mem _ (List.mem_singleton_self _), rfl, ?_⟩
    norm_num [specEnergyFormula, round2, round_eq, max_def]
  · rw [riseFallTrace_eq]
    refine ⟨_, List.mem_singleton_self _, rfl, ?_⟩
    norm_num [specEnergyFormula, round2, round_eq, max_def]

/-- C4 (amended): in every reachable engine state, every closed session
whose battery strictly rose carries
`energy_added = round((end − start)/100 × 77.4, 2)`, the capacity being
hardcoded at 77.4 regardless of the configured `battery_capacity_kwh`;
a closed session with `end_battery ≤ start_battery` retains the energy
last computed while the level was higher (0 if it never rose). -/
theorem claimC4_closed_energy (cfg : EngineConfig) (s : EngineState)
    (h : ReachableEngineState cfg s) :
    ∀ r ∈ s.sessions, r.is_complete = true →
      r.start_battery < r.end_battery →
      r.energy_added
        = round2 (((r.end_battery - r.start_battery : ℤ) : ℚ)
            / 100 * (387/5)) :=
  (engineInv_of_reachable cfg s h).closedEnergy

/-- Witness for C4 at the closed session of the inference scenario. -/
theorem claimC4_witness :
    inferredSessionRow ∈ inferredScenarioTrace.sessions
    ∧ inferredSessionRow.is_complete = true
    ∧ inferredSessionRow.start_battery < inferredSessionRow.end_battery
    ∧ inferredSessionRow.energy_added
        = round2 (((inferredSessionRow.end_battery
            - inferredSessionRow.start_battery : ℤ) : ℚ) / 100 * (387/5)) := by
  have hmem : inferredSessionRow ∈ inferredScenarioTrace.sessions := by
    rw [inferredScenarioTrace_eq]
    exact List.mem_singleton.mpr rfl
  exact ⟨hmem, rfl, by decide,
    claimC4_closed_energy ⟨72, 387/5⟩ inferredScenarioTrace
      inferredScenarioTrace_reachable inferredSessionRow hmem rfl (by decide)⟩

/-- C10: the "previous reading" is the second-to-last battery row (the
row before the one appended for the current poll); with fewer than two
rows it is `None`; and on the very first battery reading no charging
session is ever created when the vendor charge flag is off — in
particular none is inferred from a level rise. -/
theorem claimC10_previous_reading :
    (∀ (b : List (Option ℤ)) (x : Option ℤ),
        getLastBatteryLevel (b ++ [x]) = b.getLast?.join)
    ∧ (∀ b : List (Option ℤ), b.length ≤ 1 → getLastBatteryLevel b = none)
    ∧ (∀ (cfg : EngineConfig) (S : List SessionRow) (n : ℕ) (ts : ℚ)
        (b : BatteryInput) (loc : Option LocationInput),
        b.is_charging = false →
        (storeBatterySnapshot cfg ⟨[], S, n⟩ ts b loc).sessions.length
          = S.length) := by
  refine ⟨getLastBatteryLevel_append, ?_, ?_⟩
  · intro b hb
    unfold getLastBatteryLevel
    rw [if_pos hb]
  · intro cfg S n ts b loc hchg
    unfold storeBatterySnapshot
    cases hv : validateBatteryLevel b.level with
    | missing => simp only [trackChargingSession, hv]
    | invalid => simp only [trackChargingSession, hv]
    | valid lvl =>
      have hprev : getLastBatteryLevel [b.level] = none := by
        unfold getLastBatteryLevel
        rw [if_pos (by simp)]
      simp only [trackChargingSession, hv, hchg, List.nil_append, hprev,
        Bool.and_false, Bool.or_false, Bool.false_and, Bool.false_or]
      rw [if_neg (by simp)]
      cases hact : findActiveSession S with
      | none =>
        simp only
        rw [if_neg (by simp)]
      | some a =>
        simp only
        rw [if_neg (by simp)]
        simp [completeChargingSession, updateChargingSession,
          updateFirst_length]

/-- Witness for C10: two concrete battery tables and a first-poll store
with the charge flag off. -/
theorem claimC10_witness :
    getLastBatteryLevel ([some 50] ++ [some 60]) = [some 50].getLast?.join
    ∧ getLastBatteryLevel [some 50] = none
    ∧ (storeBatterySnapshot ⟨72, 387/5⟩ ⟨[], [], 0⟩ 600
        ⟨some 60, false, none, some 0⟩ none).sessions.length
      = ([] : List SessionRow).length :=
  ⟨claimC10_previous_reading.1 [some 50] (some 60),
   claimC10_previous_reading.2.1 [some 50] (by norm_num),
   claimC10_previous_reading.2.2 ⟨72, 387/5⟩ [] 0 600
     ⟨some 60, false, none, some 0⟩ none rfl⟩
